import Mathlib

/-!
turso-go: statement controller and embedded-library loader.

A shallow embedding of `stmt.go` and `embedded.go`.

* The native engine is an oracle (`Native`): every boundary call receives the
  log of all calls made so far, so its answers may depend on the whole history.
  Each boundary call is appended to the log of the `World`.
* The statement (`tursoStmt`) is threaded explicitly through every operation.
  Operations are run one at a time, which is what the statement mutex enforces.
* A Go runtime panic (index out of range) is the result `none`.
* The loader is embedded over a file-system oracle (`Env`) with its own log.
-/

namespace TursoGo

/-! ## Data model -/

/-- Modelled from the spec: the `ResultCode` enumeration returned by boundary calls
(`{Ok, Done, Error, Busy, Interrupt, Invalid, …}`); its declaration is not among the
source files. `other n` stands for every further code. -/
inductive ResultCode where
  | Ok
  | Done
  | Error
  | Busy
  | Interrupt
  | Invalid
  | other (n : Nat)
  deriving DecidableEq, Repr

/-- Go `error` values that the two files can produce; `nil` is `none : Option GoError`. -/
inductive GoError where
  /-- The value of `errors.New(msg)` and of `fmt.Errorf` without `%w`. -/
  | new (msg : String)
  /-- The value of `fmt.Errorf("error closing statement: %s", rc.String())`. -/
  | closing (rc : ResultCode)
  /-- The value of `fmt.Errorf(msg ++ ": %w", inner)`. -/
  | wrap (msg : String) (inner : GoError)
  /-- The value `context.Canceled`. -/
  | canceled
  /-- The value `context.DeadlineExceeded`. -/
  | deadlineExceeded
  deriving DecidableEq, Repr

/-- A `driver.Value`; the payload is irrelevant to the controller. -/
structure Value where
  raw : Nat
  deriving DecidableEq, Repr

/-- A `driver.NamedValue`. -/
structure NamedValue where
  name : String
  ordinal : Nat
  value : Value
  deriving DecidableEq, Repr

/-- One encoded slot of an argument buffer (`tursoValue`). -/
structure TursoValue where
  tag : Nat
  bits : Nat
  deriving DecidableEq, Repr

/-- A `uintptr` holding an argument-buffer address: `uintptr(0)` or the address
`&buf[0]` of the first element of a live buffer (never zero). -/
inductive ArgPtr where
  | null
  | firstOf (buf : List TursoValue)
  deriving DecidableEq, Repr

/-- A `context.Context` as seen through `Done()` and `Err()`. -/
inductive Context where
  | live
  | cancelled
  | expired
  deriving DecidableEq, Repr

/-- Whether the channel `ctx.Done()` is closed. -/
def Context.isDone : Context → Bool
  | .live => false
  | .cancelled => true
  | .expired => true

/-- The value of `ctx.Err()`. -/
def Context.Err : Context → Option GoError
  | .live => none
  | .cancelled => some GoError.canceled
  | .expired => some GoError.deadlineExceeded

/-- A call that crosses into the native library. -/
inductive Call where
  | stmtParamCount (h : Nat)
  | stmtClose (h : Nat)
  | stmtExec (h : Nat) (argPtr : ArgPtr) (argc : Int)
  | stmtLastInsertId (h : Nat)
  | stmtQuery (h : Nat) (argPtr : ArgPtr) (argc : Nat)
  | stmtGetError (h : Nat)
  | freeCString (p : Nat)
  deriving DecidableEq, Repr

/-- The statement handle a boundary call is made with (`freeCString` has none). -/
def Call.handle : Call → Option Nat
  | .stmtParamCount h => some h
  | .stmtClose h => some h
  | .stmtExec h _ _ => some h
  | .stmtLastInsertId h => some h
  | .stmtQuery h _ _ => some h
  | .stmtGetError h => some h
  | .freeCString _ => none

/-- The native library. Every entry point sees the log of earlier calls.
Output slots are `Option Int`: `none` when the native side leaves the slot untouched.
`stmtGetError` returns the C-string pointer and the text stored there. -/
structure Native where
  stmtParamCount : List Call → Nat → Int
  stmtClose : List Call → Nat → ResultCode
  stmtExec : List Call → Nat → ArgPtr → Int → ResultCode × Option Int
  stmtLastInsertId : List Call → Nat → ResultCode × Option Int
  stmtQuery : List Call → Nat → ArgPtr → Nat → Nat
  stmtGetError : List Call → Nat → Nat × String

/-- The argument helpers used by `stmt.go`, which are declared elsewhere in the package. -/
structure Marshal where
  buildArgs : List Value → Except GoError (List TursoValue)
  namedValueToValue : List NamedValue → List Value
  getArgsPtr : List Value → Except GoError ArgPtr
  buildNamedArgs : List NamedValue → Except GoError (List TursoValue)

/-- The fields of `tursoStmt` other than the mutex. -/
structure tursoStmt where
  ctx : Nat
  sql : String
  err : Option GoError
  deriving DecidableEq, Repr

/-- The value of `tursoResult`. -/
structure tursoResult where
  lastID : Int
  haveLast : Bool
  rows : Int
  deriving DecidableEq, Repr

/-- Modelled from the spec: the value of `newRows(rowsPtr)`, the result adapter that
takes ownership of the row-set handle; `newRows` is not among the source files. -/
structure tursoRows where
  ctx : Nat
  deriving DecidableEq, Repr

/-- A statement together with the log of boundary calls made so far. -/
structure World where
  stmt : tursoStmt
  log : List Call
  deriving DecidableEq, Repr

/-- Append one boundary call to the log. -/
def World.record (w : World) (c : Call) : World :=
  { w with log := w.log ++ [c] }

/-- The conversion `int32(n)` of a non-negative `int`. -/
def toInt32 (n : Nat) : Int :=
  (((n + 2147483648) % 4294967296 : Nat) : Int) - 2147483648

/-- The conversion `uint64(len(buf))`: exact, since a length is a non-negative `int`. -/
def toUint64 (buf : List TursoValue) : Nat :=
  buf.length

/-- The expression `uintptr(unsafe.Pointer(&buf[0]))`; `none` is the index-out-of-range panic. -/
def addrOfFirst (buf : List TursoValue) : Option ArgPtr :=
  match buf with
  | [] => none
  | _ :: _ => some (ArgPtr.firstOf buf)

/-- The value of an `int64` output slot initialised to `init` after a native call. -/
def slotAfter (init : Int) (written : Option Int) : Int :=
  written.getD init

/-! ## `stmt.go` -/

/-- The function `newStmt`. -/
def newStmt (ctx : Nat) (sql : String) : tursoStmt :=
  { ctx := ctx, sql := sql, err := none }

/-- The method `tursoStmt.getError`. -/
def getError (N : Native) (w : World) : Option GoError × World :=
  let r := N.stmtGetError w.log w.stmt.ctx
  let w1 := w.record (Call.stmtGetError w.stmt.ctx)
  if r.1 = 0 then (none, w1)
  else
    let e := GoError.new r.2
    (some e, ({ w1 with stmt := { w1.stmt with err := some e } }).record (Call.freeCString r.1))

/-- The method `tursoStmt.NumInput`. -/
def NumInput (N : Native) (w : World) : Int × World :=
  let res := N.stmtParamCount w.log w.stmt.ctx
  let w1 := w.record (Call.stmtParamCount w.stmt.ctx)
  if res < 0 then (res, (getError N w1).2) else (res, w1)

/-- The method `tursoStmt.Close`. -/
def Close (N : Native) (w : World) : Option GoError × World :=
  if w.stmt.ctx = 0 then (none, w)
  else
    let res := N.stmtClose w.log w.stmt.ctx
    let w1 := w.record (Call.stmtClose w.stmt.ctx)
    let w2 : World := { w1 with stmt := { w1.stmt with ctx := 0 } }
    if res ≠ ResultCode.Ok then (some (GoError.closing res), w2) else (none, w2)

/-- The `Ok, Done` branch shared verbatim by `Exec` and `ExecContext`:
the best-effort last-insert-id fetch and the construction of the result. -/
def execSucceeded (N : Native) (changes : Int) (w : World) :
    (Option tursoResult × Option GoError) × World :=
  let r := N.stmtLastInsertId w.log w.stmt.ctx
  let w1 := w.record (Call.stmtLastInsertId w.stmt.ctx)
  let last := slotAfter 0 r.2
  let haveLast := if r.1 = ResultCode.Ok then true else false
  ((some { lastID := last, haveLast := haveLast, rows := changes }, none), w1)

/-- The method `tursoStmt.Exec`; `none` is a runtime panic. -/
def Exec (M : Marshal) (N : Native) (args : List Value) (w : World) :
    Option ((Option tursoResult × Option GoError) × World) :=
  match M.buildArgs args with
  | .error err => some ((none, some err), w)
  | .ok argArray =>
    let argCount := toUint64 argArray
    let argPtr? := if argCount > 0 then addrOfFirst argArray else some ArgPtr.null
    match argPtr? with
    | none => none
    | some argPtr =>
      let res := N.stmtExec w.log w.stmt.ctx argPtr (toInt32 args.length)
      let w1 := w.record (Call.stmtExec w.stmt.ctx argPtr (toInt32 args.length))
      let changes := slotAfter 0 res.2
      match res.1 with
      | .Ok => some (execSucceeded N changes w1)
      | .Done => some (execSucceeded N changes w1)
      | .Error => some ((none, some (GoError.new "error executing statement")), w1)
      | .Busy => some ((none, some (GoError.new "busy")), w1)
      | .Interrupt => some ((none, some (GoError.new "interrupted")), w1)
      | .Invalid => some ((none, some (GoError.new "invalid statement")), w1)
      | .other _ =>
        let g := getError N w1
        some ((none, g.1), g.2)

/-- The method `tursoStmt.Query`; `none` is a runtime panic. -/
def Query (M : Marshal) (N : Native) (args : List Value) (w : World) :
    Option ((Option tursoRows × Option GoError) × World) :=
  match M.buildArgs args with
  | .error err => some ((none, some err), w)
  | .ok queryArgs =>
    let argPtr? := if args.length > 0 then addrOfFirst queryArgs else some ArgPtr.null
    match argPtr? with
    | none => none
    | some argPtr =>
      let rowsPtr := N.stmtQuery w.log w.stmt.ctx argPtr (toUint64 queryArgs)
      let w1 := w.record (Call.stmtQuery w.stmt.ctx argPtr (toUint64 queryArgs))
      if rowsPtr = 0 then
        let g := getError N w1
        some ((none, g.1), g.2)
      else some ((some { ctx := rowsPtr }, none), w1)

/-- The method `tursoStmt.ExecContext` (its `query` parameter is unused). -/
def ExecContext (M : Marshal) (N : Native) (ctx : Context) (args : List NamedValue)
    (w : World) : (Option tursoResult × Option GoError) × World :=
  let stripped := M.namedValueToValue args
  match M.getArgsPtr stripped with
  | .error err => ((none, some err), w)
  | .ok argArray =>
    if ctx.isDone then ((none, ctx.Err), w)
    else
      let res := N.stmtExec w.log w.stmt.ctx argArray (toInt32 args.length)
      let w1 := w.record (Call.stmtExec w.stmt.ctx argArray (toInt32 args.length))
      let changes := slotAfter 0 res.2
      match res.1 with
      | .Ok => execSucceeded N changes w1
      | .Done => execSucceeded N changes w1
      | .Busy => ((none, some (GoError.new "Database is Busy")), w1)
      | .Interrupt => ((none, some (GoError.new "Interrupted")), w1)
      | _ =>
        let g := getError N w1
        ((none, g.1), g.2)

/-- The method `tursoStmt.QueryContext`; `none` is a runtime panic. -/
def QueryContext (M : Marshal) (N : Native) (ctx : Context) (args : List NamedValue)
    (w : World) : Option ((Option tursoRows × Option GoError) × World) :=
  match M.buildNamedArgs args with
  | .error err => some ((none, some err), w)
  | .ok queryArgs =>
    let argsPtr? := if queryArgs.length > 0 then addrOfFirst queryArgs else some ArgPtr.null
    match argsPtr? with
    | none => none
    | some argsPtr =>
      if ctx.isDone then some ((none, ctx.Err), w)
      else
        let rowsPtr := N.stmtQuery w.log w.stmt.ctx argsPtr (toUint64 queryArgs)
        let w1 := w.record (Call.stmtQuery w.stmt.ctx argsPtr (toUint64 queryArgs))
        if rowsPtr = 0 then
          let g := getError N w1
          some ((none, g.1), g.2)
        else some ((some { ctx := rowsPtr }, none), w1)

/-- The method `tursoStmt.Err`. -/
def Err (N : Native) (w : World) : Option GoError × World :=
  if w.stmt.err = none then
    let g := getError N w
    (g.2.stmt.err, g.2)
  else (w.stmt.err, w)

/-! ## `embedded.go` -/

/-- An action of the loader on its environment, in the order performed. -/
inductive FsAction where
  | readDirEmbedded (p : String)
  | println (name : String)
  | userCacheDir
  | tempDir
  | mkdirAll (p : String)
  | stat (p : String)
  | openEmbedded (p : String)
  | create (p : String)
  | copy (src dst : String)
  | chmod (p : String)
  | closeFile (p : String)
  deriving DecidableEq, Repr

/-- The process environment of the loader: the platform constants, the pure path
functions, and the embedded and on-disk file systems as oracles over the action log.
An error result `none` is Go's `nil`. -/
structure Env where
  GOOS : String
  GOARCH : String
  pathJoin : List String → String
  filepathJoin : List String → String
  readDir : List FsAction → String → List String
  userCacheDir : List FsAction → String
  tempDir : List FsAction → String
  mkdirAll : List FsAction → String → Option GoError
  stat : List FsAction → String → Except GoError Int
  openEmbedded : List FsAction → String → Option GoError
  create : List FsAction → String → Option GoError
  copy : List FsAction → String → String → Option GoError

/-- The package-level variables `extractOnce`, `extractedPath`, `extractErr`,
with the log of file-system actions performed so far. -/
structure LoaderState where
  done : Bool
  extractedPath : String
  extractErr : Option GoError
  log : List FsAction
  deriving DecidableEq, Repr

/-- The state of the package variables at process start. -/
def LoaderState.initial : LoaderState :=
  { done := false, extractedPath := "", extractErr := none, log := [] }

/-- Append actions to the loader log. -/
def LoaderState.act (s : LoaderState) (as : List FsAction) : LoaderState :=
  { s with log := s.log ++ as }

/-- The first `switch` of the closure: the library file name for `runtime.GOOS`. -/
def libNameFor (goos : String) : Except GoError String :=
  if goos = "darwin" then .ok "libturso_go.dylib"
  else if goos = "linux" then .ok "libturso_go.so"
  else if goos = "windows" then .ok "turso_go.dll"
  else .error (GoError.new ("unsupported operating system: " ++ goos))

/-- The second `switch` of the closure: the suffix for `runtime.GOARCH`. -/
def archSuffixFor (goarch : String) : Except GoError String :=
  if goarch = "amd64" then .ok "amd64"
  else if goarch = "arm64" then .ok "arm64"
  else if goarch = "386" then .ok "386"
  else .error (GoError.new ("unsupported architecture: " ++ goarch))

/-- Lines 54-81 of the closure: the platform directory and the library file name,
or the error stored in `extractErr`. -/
def resolvePlatform (goos goarch : String) : Except GoError (String × String) :=
  match libNameFor goos with
  | .error e => .error e
  | .ok libName =>
    match archSuffixFor goarch with
    | .error e => .error e
    | .ok archSuffix => .ok (goos ++ "_" ++ archSuffix, libName)

/-- Lines 107-128 of the closure: copy the embedded payload to `extractedPath`. -/
def copyOut (E : Env) (embedPath : String) (s : LoaderState) : LoaderState :=
  let dst := s.extractedPath
  let s1 := s.act [FsAction.openEmbedded embedPath]
  match E.openEmbedded s.log embedPath with
  | some err => { s1 with extractErr := some (GoError.wrap ("open embedded " ++ embedPath) err) }
  | none =>
    let s2 := s1.act [FsAction.create dst]
    match E.create s1.log dst with
    | some err =>
      ({ s2 with extractErr := some (GoError.wrap ("create " ++ dst) err) }).act
        [FsAction.closeFile embedPath]
    | none =>
      let s3 := s2.act [FsAction.copy embedPath dst]
      match E.copy s2.log embedPath dst with
      | some err =>
        ({ s3 with extractErr := some (GoError.wrap "copy" err) }).act
          [FsAction.closeFile dst, FsAction.closeFile embedPath]
      | none =>
        let s4 := if E.GOOS ≠ "windows" then s3.act [FsAction.chmod dst] else s3
        s4.act [FsAction.closeFile dst, FsAction.closeFile embedPath]

/-- The closure passed to `extractOnce.Do`. -/
def extractBody (E : Env) (s : LoaderState) : LoaderState :=
  match resolvePlatform E.GOOS E.GOARCH with
  | .error e => { s with extractErr := some e }
  | .ok (platformDir, libName) =>
    let embedPath := E.pathJoin ["libs", platformDir, libName]
    let dir := E.pathJoin ["libs", platformDir]
    let entries := E.readDir s.log dir
    let s1 := (s.act [FsAction.readDirEmbedded dir]).act (entries.map FsAction.println)
    let cacheRoot0 := E.userCacheDir s1.log
    let s2 := s1.act [FsAction.userCacheDir]
    let cacheRoot := if cacheRoot0 = "" then E.tempDir s2.log else cacheRoot0
    let s3 := if cacheRoot0 = "" then s2.act [FsAction.tempDir] else s2
    let destDir := E.filepathJoin [cacheRoot, "turso-go", platformDir]
    let s4 := s3.act [FsAction.mkdirAll destDir]
    match E.mkdirAll s3.log destDir with
    | some err => { s4 with extractErr := some (GoError.wrap ("mkdir " ++ destDir) err) }
    | none =>
      let s5 : LoaderState := { s4 with extractedPath := E.filepathJoin [destDir, libName] }
      let s6 := s5.act [FsAction.stat s5.extractedPath]
      match E.stat s5.log s5.extractedPath with
      | .ok size => if size > 0 then s6 else copyOut E embedPath s6
      | .error _ => copyOut E embedPath s6

/-- The function `extractEmbeddedLibrary`: `sync.Once` runs the closure on the first call only. -/
def extractEmbeddedLibrary (E : Env) (s : LoaderState) :
    (String × Option GoError) × LoaderState :=
  let s1 := if s.done then s else { extractBody E s with done := true }
  ((s1.extractedPath, s1.extractErr), s1)

/-! ## Fixtures used by the concrete instances below -/

/-- A marshaller that encodes every value into one slot. -/
def slotMarshal : Marshal where
  buildArgs := fun args => .ok (args.map fun v => { tag := 1, bits := v.raw })
  namedValueToValue := fun args => args.map fun a => a.value
  getArgsPtr := fun args =>
    match args.map fun v => ({ tag := 1, bits := v.raw } : TursoValue) with
    | [] => .ok ArgPtr.null
    | b :: bs => .ok (ArgPtr.firstOf (b :: bs))
  buildNamedArgs := fun args => .ok (args.map fun a => { tag := 1, bits := a.value.raw })

/-- A native library on which every call succeeds: one row changed, insert id 42. -/
def healthyNative : Native where
  stmtParamCount := fun _ _ => 0
  stmtClose := fun _ _ => ResultCode.Ok
  stmtExec := fun _ _ _ _ => (ResultCode.Ok, some 1)
  stmtLastInsertId := fun _ _ => (ResultCode.Ok, some 42)
  stmtQuery := fun _ _ _ _ => 77
  stmtGetError := fun _ _ => (0, "")

/-- An open statement with handle 7 and an empty call log. -/
def freshWorld : World :=
  { stmt := newStmt 7 "INSERT INTO t VALUES (1)", log := [] }

/-- The number of native close calls in a log. -/
def closeCalls (log : List Call) : Nat :=
  (log.filter fun c => match c with
    | Call.stmtClose _ => true
    | _ => false).length

/-- The pointer computed from a buffer by the guard `len(buf) > 0`: the address of the
first element of a non-empty buffer, `uintptr(0)` for an empty one. -/
def bufferPtr (buf : List TursoValue) : ArgPtr :=
  match buf with
  | [] => ArgPtr.null
  | _ :: _ => ArgPtr.firstOf buf

/-- What a successful execute returns, given the world `w1` right after the exec call
and the value `written` the native call put into the change-count slot: a nil error and
a result whose row count is the slot's value, with `haveLast` set exactly when the
last-insert-id call returned `Ok` and `lastID` the value that call wrote; the only
further boundary call is the last-insert-id call. -/
def ExecSucceeds (N : Native) (w1 : World) (written : Option Int)
    (out : (Option tursoResult × Option GoError) × World) : Prop :=
  ∃ res : tursoResult,
    out.1 = (some res, none) ∧
    res.rows = slotAfter 0 written ∧
    (∀ v, written = some v → res.rows = v) ∧
    (res.haveLast = true ↔ (N.stmtLastInsertId w1.log w1.stmt.ctx).1 = ResultCode.Ok) ∧
    (∀ v, (N.stmtLastInsertId w1.log w1.stmt.ctx).2 = some v → res.lastID = v) ∧
    out.2 = w1.record (Call.stmtLastInsertId w1.stmt.ctx)

/-- A native library whose last-insert-id call fails although the execute is `Done`. -/
def noIdNative : Native where
  stmtParamCount := fun _ _ => 0
  stmtClose := fun _ _ => ResultCode.Ok
  stmtExec := fun _ _ _ _ => (ResultCode.Done, some 3)
  stmtLastInsertId := fun _ _ => (ResultCode.Error, none)
  stmtQuery := fun _ _ _ _ => 77
  stmtGetError := fun _ _ => (0, "")

/-- A native library whose exec call reports `code` and whose error-retrieval call
returns the pointer `ptr` to the text `text` (`ptr = 0` is the null reference);
its query call returns handle `0`. -/
def failingNative (code : ResultCode) (ptr : Nat) (text : String) : Native where
  stmtParamCount := fun _ _ => 0
  stmtClose := fun _ _ => ResultCode.Ok
  stmtExec := fun _ _ _ _ => (code, none)
  stmtLastInsertId := fun _ _ => (ResultCode.Ok, some 42)
  stmtQuery := fun _ _ _ _ => 0
  stmtGetError := fun _ _ => (ptr, text)

/-- The fixed errors of the `switch` in `Exec` for the four codes it names. -/
def execFixedError : ResultCode → Option GoError
  | .Error => some (GoError.new "error executing statement")
  | .Busy => some (GoError.new "busy")
  | .Interrupt => some (GoError.new "interrupted")
  | .Invalid => some (GoError.new "invalid statement")
  | _ => none

/-- The boundary calls an operation added to the log: `after` without its prefix `before`. -/
def callsSince (before after : List Call) : List Call :=
  after.drop before.length

/-- An operation that started in a world with log `before` issued the boundary call
`first` first, and every call it issued names the sentinel handle `0` (or no handle). -/
def CallsOnSentinel (before after : List Call) (first : Call) : Prop :=
  ∃ cs, after = before ++ cs ∧ cs.head? = some first ∧
    ∀ c ∈ cs, c.handle = some 0 ∨ c.handle = none

/-- A native library that rejects the null handle: on handle `0` the parameter count is
negative, exec reports `Error`, query returns handle `0`, and no error text is pending. -/
def strictNative : Native where
  stmtParamCount := fun _ h => if h = 0 then -1 else 1
  stmtClose := fun _ _ => ResultCode.Ok
  stmtExec := fun _ h _ _ => if h = 0 then (ResultCode.Error, none) else (ResultCode.Ok, some 1)
  stmtLastInsertId := fun _ h => if h = 0 then (ResultCode.Error, none) else (ResultCode.Ok, some 42)
  stmtQuery := fun _ h _ _ => if h = 0 then 0 else 77
  stmtGetError := fun _ _ => (0, "")

/-- Run `Err` `n` more times, collecting the returned values. -/
def ErrTimes (N : Native) : Nat → World → List (Option GoError) × World
  | 0, w => ([], w)
  | n + 1, w =>
    let r := Err N w
    let rest := ErrTimes N n r.2
    (r.1 :: rest.1, rest.2)

/-- A native library with no pending error text until an error-retrieval call has been
made once; from then on the text "boom" is pending. -/
def lateErrorNative : Native where
  stmtParamCount := fun _ _ => 0
  stmtClose := fun _ _ => ResultCode.Ok
  stmtExec := fun _ _ _ _ => (ResultCode.Ok, some 1)
  stmtLastInsertId := fun _ _ => (ResultCode.Ok, some 42)
  stmtQuery := fun _ _ _ _ => 77
  stmtGetError := fun log h => if Call.stmtGetError h ∈ log then (9, "boom") else (0, "")

/-- The pointer `p` was obtained from the buffer `buf` without an out-of-range index:
it is `uintptr(0)`, or the buffer is non-empty and `p` is the address of its first element. -/
def SafePtr (buf : List TursoValue) (p : ArgPtr) : Prop :=
  p = ArgPtr.null ∨ (buf ≠ [] ∧ p = ArgPtr.firstOf buf)

/-- The operating systems named by the first `switch` of the loader. -/
def supportedOS : List String := ["darwin", "linux", "windows"]

/-- The architectures named by the second `switch` of the loader. -/
def supportedArch : List String := ["amd64", "arm64", "386"]

/-- The two errors the loader stores for a platform it does not support. -/
def UnsupportedPlatform (goos goarch : String) (e : GoError) : Prop :=
  e = GoError.new ("unsupported operating system: " ++ goos) ∨
  e = GoError.new ("unsupported architecture: " ++ goarch)

/-- Call `extractEmbeddedLibrary` `n` more times, collecting the returned pairs. -/
def extractTimes (E : Env) : Nat → LoaderState → List (String × Option GoError) × LoaderState
  | 0, s => ([], s)
  | n + 1, s =>
    let r := extractEmbeddedLibrary E s
    let rest := extractTimes E n r.2
    (r.1 :: rest.1, rest.2)

/-- A Linux/amd64 process whose cache root is read-only: `MkdirAll` fails. -/
def readOnlyCacheEnv : Env where
  GOOS := "linux"
  GOARCH := "amd64"
  pathJoin := fun parts => "/".intercalate parts
  filepathJoin := fun parts => "/".intercalate parts
  readDir := fun _ _ => ["libturso_go.so"]
  userCacheDir := fun _ => "/home/u/.cache"
  tempDir := fun _ => "/tmp"
  mkdirAll := fun _ _ => some (GoError.new "permission denied")
  stat := fun _ _ => .error (GoError.new "no such file or directory")
  openEmbedded := fun _ _ => none
  create := fun _ _ => none
  copy := fun _ _ _ => none

/-! ## Basic facts about `getError` and `Close` -/

theorem getError_ctx (N : Native) (w : World) : (getError N w).2.stmt.ctx = w.stmt.ctx := by
  unfold getError
  by_cases h : (N.stmtGetError w.log w.stmt.ctx).1 = 0 <;> simp [h, World.record]

theorem getError_of_null (N : Native) (w : World) (h : (N.stmtGetError w.log w.stmt.ctx).1 = 0) :
    getError N w = (none, w.record (Call.stmtGetError w.stmt.ctx)) := by
  unfold getError
  simp [h]

theorem getError_of_text (N : Native) (w : World) (h : (N.stmtGetError w.log w.stmt.ctx).1 ≠ 0) :
    getError N w =
      (some (GoError.new (N.stmtGetError w.log w.stmt.ctx).2),
        { stmt := { w.stmt with err := some (GoError.new (N.stmtGetError w.log w.stmt.ctx).2) },
          log := w.log ++ [Call.stmtGetError w.stmt.ctx,
            Call.freeCString (N.stmtGetError w.log w.stmt.ctx).1] }) := by
  unfold getError
  simp [h, World.record]

theorem Close_ctx (N : Native) (w : World) : (Close N w).2.stmt.ctx = 0 := by
  unfold Close
  by_cases h : w.stmt.ctx = 0
  · simp [h]
  · by_cases hr : N.stmtClose w.log w.stmt.ctx = ResultCode.Ok <;> simp [h, hr]

theorem Close_of_closed (N : Native) (w : World) (h : w.stmt.ctx = 0) :
    Close N w = (none, w) := by
  unfold Close
  simp [h]

theorem Close_log (N : Native) (w : World) :
    (Close N w).2.log = if w.stmt.ctx = 0 then w.log else w.log ++ [Call.stmtClose w.stmt.ctx] := by
  unfold Close
  by_cases h : w.stmt.ctx = 0
  · simp [h]
  · by_cases hr : N.stmtClose w.log w.stmt.ctx = ResultCode.Ok <;> simp [h, hr, World.record]

/-! ## Claims -/

/-- C3: `Close` is idempotent. For every statement and every native library (so for
every result code of the native close call, also a second, different library on the
second call), two consecutive `Close` calls add at most one native close call to the
log, the handle is `0` after the first call whether or not it reported an error, the
second call returns no error and changes nothing. -/
theorem Close_idempotent (N N2 : Native) (w : World) :
    (Close N w).2.stmt.ctx = 0 ∧
    (Close N2 (Close N w).2).1 = none ∧
    (Close N2 (Close N w).2).2 = (Close N w).2 ∧
    closeCalls (Close N2 (Close N w).2).2.log ≤ closeCalls w.log + 1 ∧
    ((Close N2 (Close N w).2).2.log = w.log ∨
      (Close N2 (Close N w).2).2.log = w.log ++ [Call.stmtClose w.stmt.ctx]) := by
  have h2 : Close N2 (Close N w).2 = (none, (Close N w).2) :=
    Close_of_closed N2 _ (Close_ctx N w)
  have hl := Close_log N w
  refine ⟨Close_ctx N w, by rw [h2], by rw [h2], ?_, ?_⟩
  · rw [h2]
    show closeCalls (Close N w).2.log ≤ _
    rw [hl]
    by_cases h : w.stmt.ctx = 0
    · simp [h]
    · simp [h, closeCalls, List.filter_append]
  · rw [h2]
    show (Close N w).2.log = _ ∨ (Close N w).2.log = _
    rw [hl]
    by_cases h : w.stmt.ctx = 0
    · simp [h]
    · simp [h]

/-- C4: when the cancellation signal is already done, `ExecContext` and `QueryContext`
(on arguments that marshal successfully) return the signal's error, which is not nil,
with a nil result, and leave the statement and the call log exactly as they were:
no boundary call is issued, the handle and the cached error are unchanged. -/
theorem cancelled_before_dispatch (M : Marshal) (N : Native) (ctx : Context)
    (args : List NamedValue) (w : World) (hd : ctx.isDone = true) :
    ctx.Err ≠ none ∧
    (∀ p, M.getArgsPtr (M.namedValueToValue args) = .ok p →
      ExecContext M N ctx args w = ((none, ctx.Err), w)) ∧
    (∀ buf, M.buildNamedArgs args = .ok buf →
      QueryContext M N ctx args w = some ((none, ctx.Err), w)) := by
  refine ⟨?_, ?_, ?_⟩
  · cases ctx <;> simp_all [Context.isDone, Context.Err]
  · intro p hp
    simp [ExecContext, hp, hd]
  · intro buf hb
    cases buf with
    | nil => simp [QueryContext, hb, hd]
    | cons b bs => simp [QueryContext, hb, hd, addrOfFirst]

/-- C4 at a concrete input: a cancelled context on a fresh statement with one argument. -/
theorem cancelled_before_dispatch_witness :
    ExecContext slotMarshal healthyNative Context.cancelled [⟨"a", 1, ⟨5⟩⟩] freshWorld
        = ((none, some GoError.canceled), freshWorld) ∧
    QueryContext slotMarshal healthyNative Context.cancelled [⟨"a", 1, ⟨5⟩⟩] freshWorld
        = some ((none, some GoError.canceled), freshWorld) :=
  have h := cancelled_before_dispatch slotMarshal healthyNative Context.cancelled
    [⟨"a", 1, ⟨5⟩⟩] freshWorld rfl
  ⟨h.2.1 _ rfl, h.2.2 _ rfl⟩

/-! ### Execute -/

theorem execPtr_eq (buf : List TursoValue) :
    (if toUint64 buf > 0 then addrOfFirst buf else some ArgPtr.null) = some (bufferPtr buf) := by
  cases buf <;> simp [toUint64, addrOfFirst, bufferPtr]

theorem execSucceeded_spec (N : Native) (written : Option Int) (w1 : World) :
    ExecSucceeds N w1 written (execSucceeded N (slotAfter 0 written) w1) := by
  refine ⟨_, rfl, rfl, ?_, ?_, ?_, rfl⟩
  · intro v hv
    simp [hv, slotAfter]
  · by_cases h : (N.stmtLastInsertId w1.log w1.stmt.ctx).1 = ResultCode.Ok <;> simp [h]
  · intro v hv
    simp [hv, slotAfter]

/-- C5: on arguments that marshal successfully, whenever the exec boundary call returns
`Ok` or `Done`, `Exec` and `ExecContext` (signal not fired) return a nil error and a
result whose row count is the value written into the change-count slot; `haveLast` is
true exactly when the last-insert-id call returned `Ok`, `lastID` is the value that call
wrote, and a failing last-insert-id call does not make the execute fail. -/
theorem exec_success_result (M : Marshal) (N : Native) (w : World) :
    (∀ args buf, M.buildArgs args = .ok buf →
      ((N.stmtExec w.log w.stmt.ctx (bufferPtr buf) (toInt32 args.length)).1 = ResultCode.Ok ∨
       (N.stmtExec w.log w.stmt.ctx (bufferPtr buf) (toInt32 args.length)).1 = ResultCode.Done) →
      ∃ out, Exec M N args w = some out ∧
        ExecSucceeds N (w.record (Call.stmtExec w.stmt.ctx (bufferPtr buf) (toInt32 args.length)))
          (N.stmtExec w.log w.stmt.ctx (bufferPtr buf) (toInt32 args.length)).2 out) ∧
    (∀ ctx args p, ctx.isDone = false → M.getArgsPtr (M.namedValueToValue args) = .ok p →
      ((N.stmtExec w.log w.stmt.ctx p (toInt32 args.length)).1 = ResultCode.Ok ∨
       (N.stmtExec w.log w.stmt.ctx p (toInt32 args.length)).1 = ResultCode.Done) →
      ExecSucceeds N (w.record (Call.stmtExec w.stmt.ctx p (toInt32 args.length)))
        (N.stmtExec w.log w.stmt.ctx p (toInt32 args.length)).2 (ExecContext M N ctx args w)) := by
  constructor
  · intro args buf hb hc
    refine ⟨_, ?_, execSucceeded_spec N _ _⟩
    unfold Exec
    simp only [hb, execPtr_eq]
    rcases hc with hc | hc <;> rw [hc]
  · intro ctx args p hd hp hc
    have hE : ExecContext M N ctx args w =
        execSucceeded N (slotAfter 0 (N.stmtExec w.log w.stmt.ctx p (toInt32 args.length)).2)
          (w.record (Call.stmtExec w.stmt.ctx p (toInt32 args.length))) := by
      unfold ExecContext
      simp only [hp, hd]
      rcases hc with hc | hc <;> simp [hc]
    rw [hE]
    exact execSucceeded_spec N _ _

/-- C5 at concrete inputs: an insert that reports one change and id 42, and an
execute whose last-insert-id call fails: the result has `haveLast = false`, no error. -/
theorem exec_success_result_witness :
    Exec slotMarshal healthyNative [⟨1⟩] freshWorld =
      some ((some { lastID := 42, haveLast := true, rows := 1 }, none),
        { stmt := freshWorld.stmt,
          log := [Call.stmtExec 7 (ArgPtr.firstOf [⟨1, 1⟩]) 1, Call.stmtLastInsertId 7] }) ∧
    ExecContext slotMarshal noIdNative Context.live [] freshWorld =
      ((some { lastID := 0, haveLast := false, rows := 3 }, none),
        { stmt := freshWorld.stmt,
          log := [Call.stmtExec 7 ArgPtr.null 0, Call.stmtLastInsertId 7] }) ∧
    (∃ out, Exec slotMarshal healthyNative [⟨1⟩] freshWorld = some out ∧
      ExecSucceeds healthyNative
        (freshWorld.record (Call.stmtExec 7 (ArgPtr.firstOf [⟨1, 1⟩]) 1)) (some 1) out) ∧
    ExecSucceeds noIdNative (freshWorld.record (Call.stmtExec 7 ArgPtr.null 0)) (some 3)
      (ExecContext slotMarshal noIdNative Context.live [] freshWorld) :=
  have h := exec_success_result slotMarshal healthyNative freshWorld
  have h2 := exec_success_result slotMarshal noIdNative freshWorld
  ⟨rfl, rfl, h.1 [⟨1⟩] [⟨1, 1⟩] rfl (Or.inl rfl),
    h2.2 Context.live [] ArgPtr.null rfl rfl (Or.inr rfl)⟩

/-- The `switch` of `Exec` on the four failure codes it names: on arguments that
marshal successfully `Exec` returns the fixed error of the code and no result, and the
exec call is the only boundary call it issues; the four errors are pairwise distinct. -/
theorem Exec_maps_failure_codes (M : Marshal) (N : Native) (w : World)
    (args : List Value) (buf : List TursoValue) (e : GoError)
    (hb : M.buildArgs args = .ok buf)
    (he : execFixedError
      (N.stmtExec w.log w.stmt.ctx (bufferPtr buf) (toInt32 args.length)).1 = some e) :
    Exec M N args w = some ((none, some e),
        w.record (Call.stmtExec w.stmt.ctx (bufferPtr buf) (toInt32 args.length))) ∧
    (List.map execFixedError
        [ResultCode.Error, ResultCode.Busy, ResultCode.Interrupt, ResultCode.Invalid]).Nodup ∧
    (∀ c ∈ [ResultCode.Error, ResultCode.Busy, ResultCode.Interrupt, ResultCode.Invalid],
      execFixedError c ≠ none) := by
  refine ⟨?_, by decide, by decide⟩
  unfold Exec
  simp only [hb, execPtr_eq]
  generalize (N.stmtExec w.log w.stmt.ctx (bufferPtr buf) (toInt32 args.length)) = r at he ⊢
  obtain ⟨c, wr⟩ := r
  cases c <;> simp_all [execFixedError]

/-- C6 at its failing input: when the exec call returns `Invalid` or `Error`,
`ExecContext` has no case for the code and falls through to the error-text
retrieval, so its error is whatever text the native side holds: two native libraries
that both report `Invalid` produce different errors, and no single error is returned
for `Invalid`. On the same codes `Exec` returns its fixed errors without any further
boundary call. -/
theorem execContext_invalid_not_fixed :
    (ExecContext slotMarshal (failingNative ResultCode.Invalid 9 "no such table: t")
        Context.live [] freshWorld).1 = (none, some (GoError.new "no such table: t")) ∧
    (ExecContext slotMarshal (failingNative ResultCode.Invalid 9 "near FROM: syntax error")
        Context.live [] freshWorld).1 = (none, some (GoError.new "near FROM: syntax error")) ∧
    (ExecContext slotMarshal (failingNative ResultCode.Error 9 "no such table: t")
        Context.live [] freshWorld).1 = (none, some (GoError.new "no such table: t")) ∧
    (ExecContext slotMarshal (failingNative ResultCode.Invalid 9 "no such table: t")
        Context.live [] freshWorld).2.log =
      [Call.stmtExec 7 ArgPtr.null 0, Call.stmtGetError 7, Call.freeCString 9] ∧
    Exec slotMarshal (failingNative ResultCode.Invalid 9 "no such table: t") [] freshWorld =
      some ((none, some (GoError.new "invalid statement")),
        freshWorld.record (Call.stmtExec 7 ArgPtr.null 0)) ∧
    Exec slotMarshal (failingNative ResultCode.Error 9 "no such table: t") [] freshWorld =
      some ((none, some (GoError.new "error executing statement")),
        freshWorld.record (Call.stmtExec 7 ArgPtr.null 0)) ∧
    ¬ ∃ kind : GoError, ∀ text : String,
        (ExecContext slotMarshal (failingNative ResultCode.Invalid 9 text)
          Context.live [] freshWorld).1.2 = some kind := by
  refine ⟨rfl, rfl, rfl, rfl, rfl, rfl, ?_⟩
  rintro ⟨kind, hk⟩
  have h1 := hk "a"
  have h2 := hk "b"
  have e1 : (ExecContext slotMarshal (failingNative ResultCode.Invalid 9 "a")
      Context.live [] freshWorld).1.2 = some (GoError.new "a") := rfl
  have e2 : (ExecContext slotMarshal (failingNative ResultCode.Invalid 9 "b")
      Context.live [] freshWorld).1.2 = some (GoError.new "b") := rfl
  rw [e1] at h1
  rw [e2] at h2
  have : GoError.new "a" = GoError.new "b" := by
    rw [Option.some.inj h1, Option.some.inj h2]
  exact absurd this (by decide)

/-! ### Native failures that come back as success -/

/-- C2 at its failing inputs: when the error-retrieval call returns the null reference,
`Query` (native query handle `0`), `QueryContext`, `Exec` (an exec code outside the six
that `Exec` names) and `ExecContext` (exec code `Error`, for which `Exec` itself returns
a fixed error) all return a nil result together with a nil error. -/
theorem native_failure_returned_as_success :
    (Query slotMarshal (failingNative ResultCode.Error 0 "") [] freshWorld).map (fun o => o.1)
      = some (none, none) ∧
    (QueryContext slotMarshal (failingNative ResultCode.Error 0 "") Context.live []
      freshWorld).map (fun o => o.1) = some (none, none) ∧
    (Exec slotMarshal (failingNative (ResultCode.other 1) 0 "") [] freshWorld).map (fun o => o.1)
      = some (none, none) ∧
    (ExecContext slotMarshal (failingNative ResultCode.Error 0 "") Context.live []
      freshWorld).1 = (none, none) ∧
    (Exec slotMarshal (failingNative ResultCode.Error 0 "") [] freshWorld).map (fun o => o.1)
      = some (none, some (GoError.new "error executing statement")) ∧
    (Query slotMarshal (failingNative ResultCode.Error 0 "") [] freshWorld).map
      (fun o => o.2.log) = some [Call.stmtQuery 7 ArgPtr.null 0, Call.stmtGetError 7] := by
  refine ⟨rfl, rfl, rfl, rfl, rfl, rfl⟩

/-! ### Memoisation of `Err` -/

theorem Err_fst (N : Native) (w : World) : (Err N w).1 = (Err N w).2.stmt.err := by
  unfold Err
  by_cases h : w.stmt.err = none <;> simp [h]

theorem Err_of_cached (N : Native) (w : World) (e : GoError) (h : w.stmt.err = some e) :
    Err N w = (some e, w) := by
  unfold Err
  simp [h]

theorem ErrTimes_of_cached (N : Native) (w : World) (e : GoError) (h : w.stmt.err = some e)
    (n : Nat) : ErrTimes N n w = (List.replicate n (some e), w) := by
  induction n with
  | zero => rfl
  | succ k ih =>
    simp only [ErrTimes, Err_of_cached N w e h, ih, List.replicate_succ]

/-- C7, as stated, fails: a first `Err` that finds no pending native text returns nil
and caches nothing, so the second `Err` issues the error-retrieval call again and
may return a different value. -/
theorem Err_not_memoised_when_nil :
    (Err lateErrorNative freshWorld).1 = none ∧
    (Err lateErrorNative (Err lateErrorNative freshWorld).2).1 = some (GoError.new "boom") ∧
    (Err lateErrorNative freshWorld).2.log = [Call.stmtGetError 7] ∧
    (Err lateErrorNative (Err lateErrorNative freshWorld).2).2.log =
      [Call.stmtGetError 7, Call.stmtGetError 7, Call.freeCString 9] := by
  refine ⟨rfl, rfl, rfl, rfl⟩

/-- C7, amended: once a call of `Err` has returned a non-nil error, any number of
further consecutive `Err` calls (against any native library) return that same error
and leave the statement and the call log untouched; when the call returned nil, the
next `Err` call issues the error-retrieval call again. -/
theorem Err_memoised_when_cached (N N2 : Native) (w : World) :
    (∀ e, (Err N w).1 = some e →
      ∀ n, ErrTimes N2 n (Err N w).2 = (List.replicate n (some e), (Err N w).2)) ∧
    ((Err N w).1 = none →
      ∃ cs, (Err N2 (Err N w).2).2.log =
        (Err N w).2.log ++ Call.stmtGetError w.stmt.ctx :: cs) := by
  constructor
  · intro e he n
    rw [Err_fst] at he
    exact ErrTimes_of_cached N2 _ e he n
  · intro hn
    rw [Err_fst] at hn
    have hctx : (Err N w).2.stmt.ctx = w.stmt.ctx := by
      unfold Err
      by_cases h : w.stmt.err = none
      · simp [h, getError_ctx]
      · simp [h]
    generalize (Err N w).2 = w1 at hn hctx
    unfold Err
    simp only [hn, if_true]
    by_cases h0 : (N2.stmtGetError w1.log w1.stmt.ctx).1 = 0
    · rw [getError_of_null _ _ h0]
      exact ⟨[], by simp [World.record, hctx]⟩
    · rw [getError_of_text _ _ h0]
      exact ⟨[Call.freeCString (N2.stmtGetError w1.log w1.stmt.ctx).1], by simp [hctx]⟩

/-- C7 (amended) at a concrete input: the native text "no such table: t" is fetched by
the first `Err`; three further calls return it without any boundary call. -/
theorem Err_memoised_when_cached_witness :
    (Err (failingNative ResultCode.Error 9 "no such table: t") freshWorld).1
      = some (GoError.new "no such table: t") ∧
    ErrTimes healthyNative 3 (Err (failingNative ResultCode.Error 9 "no such table: t")
        freshWorld).2 =
      (List.replicate 3 (some (GoError.new "no such table: t")),
        (Err (failingNative ResultCode.Error 9 "no such table: t") freshWorld).2) :=
  ⟨rfl, (Err_memoised_when_cached (failingNative ResultCode.Error 9 "no such table: t")
    healthyNative freshWorld).1 _ rfl 3⟩

/-! ### Operations on a closed statement -/

theorem getError_calls_sentinel (N : Native) (w : World) (h0 : w.stmt.ctx = 0) :
    ∃ cs, (getError N w).2.log = w.log ++ cs ∧ cs.head? = some (Call.stmtGetError 0) ∧
      ∀ c ∈ cs, c.handle = some 0 ∨ c.handle = none := by
  by_cases hn : (N.stmtGetError w.log w.stmt.ctx).1 = 0
  · rw [getError_of_null _ _ hn]
    exact ⟨[Call.stmtGetError 0], by simp [World.record, h0], rfl, by simp [Call.handle]⟩
  · rw [getError_of_text _ _ hn]
    exact ⟨[Call.stmtGetError 0, Call.freeCString (N.stmtGetError w.log w.stmt.ctx).1],
      by simp [h0], rfl, by simp [Call.handle]⟩

theorem sentinel_after_getError (N : Native) (w : World) (c : Call) (hc : c.handle = some 0)
    (h0 : w.stmt.ctx = 0) :
    CallsOnSentinel w.log (getError N (w.record c)).2.log c := by
  obtain ⟨cs, hl, -, hall⟩ := getError_calls_sentinel N (w.record c) (by simpa [World.record])
  refine ⟨c :: cs, ?_, rfl, ?_⟩
  · rw [hl]
    simp [World.record]
  · intro d hd
    rcases List.mem_cons.1 hd with hd | hd
    · exact Or.inl (hd ▸ hc)
    · exact hall d hd

theorem sentinel_single (w : World) (c : Call) (hc : c.handle = some 0) :
    CallsOnSentinel w.log (w.record c).log c :=
  ⟨[c], rfl, rfl, by
    intro d hd
    rw [List.mem_singleton.1 hd]
    exact Or.inl hc⟩

theorem sentinel_execSucceeded (N : Native) (changes : Int) (w : World) (c : Call)
    (hc : c.handle = some 0) (h0 : w.stmt.ctx = 0) :
    CallsOnSentinel w.log (execSucceeded N changes (w.record c)).2.log c := by
  refine ⟨[c, Call.stmtLastInsertId 0], ?_, rfl, ?_⟩
  · simp [execSucceeded, World.record, h0]
  · intro d hd
    simp only [List.mem_cons, List.mem_singleton, List.not_mem_nil, or_false] at hd
    rcases hd with hd | hd
    · exact Or.inl (hd ▸ hc)
    · exact Or.inl (hd ▸ rfl)

theorem NumInput_sentinel (N : Native) (w : World) (h0 : w.stmt.ctx = 0) :
    CallsOnSentinel w.log (NumInput N w).2.log (Call.stmtParamCount 0) := by
  unfold NumInput
  rw [h0]
  by_cases h : N.stmtParamCount w.log 0 < 0
  · simp only [h, if_true]
    exact sentinel_after_getError N w _ rfl h0
  · simp only [h, if_false]
    exact sentinel_single w _ rfl

theorem Exec_sentinel (M : Marshal) (N : Native) (args : List Value) (buf : List TursoValue)
    (w : World) (h0 : w.stmt.ctx = 0) (hb : M.buildArgs args = .ok buf) :
    ∃ out, Exec M N args w = some out ∧
      CallsOnSentinel w.log out.2.log (Call.stmtExec 0 (bufferPtr buf) (toInt32 args.length)) := by
  unfold Exec
  simp only [hb, execPtr_eq, h0]
  generalize (N.stmtExec w.log 0 (bufferPtr buf) (toInt32 args.length)) = r
  obtain ⟨c, wr⟩ := r
  cases c
  case Ok => exact ⟨_, rfl, sentinel_execSucceeded N _ w _ rfl h0⟩
  case Done => exact ⟨_, rfl, sentinel_execSucceeded N _ w _ rfl h0⟩
  case other n => exact ⟨_, rfl, sentinel_after_getError N w _ rfl h0⟩
  all_goals exact ⟨_, rfl, sentinel_single w _ rfl⟩

theorem queryTail_sentinel (N : Native) (w : World) (p : ArgPtr) (n : Nat) (h0 : w.stmt.ctx = 0) :
    ∃ out,
      (if N.stmtQuery w.log 0 p n = 0 then
          some ((none, (getError N (w.record (Call.stmtQuery 0 p n))).1),
            (getError N (w.record (Call.stmtQuery 0 p n))).2)
        else some ((some ({ ctx := N.stmtQuery w.log 0 p n } : tursoRows), none),
            w.record (Call.stmtQuery 0 p n))) = some out ∧
      CallsOnSentinel w.log out.2.log (Call.stmtQuery 0 p n) := by
  by_cases h : N.stmtQuery w.log 0 p n = 0
  · exact ⟨_, by rw [if_pos h], sentinel_after_getError N w (Call.stmtQuery 0 p n) rfl h0⟩
  · exact ⟨_, by rw [if_neg h], sentinel_single w (Call.stmtQuery 0 p n) rfl⟩

theorem queryPtr_eq (args : List Value) (buf : List TursoValue) (h : buf.length = args.length) :
    (if args.length > 0 then addrOfFirst buf else some ArgPtr.null) = some (bufferPtr buf) := by
  cases buf with
  | nil =>
    have : args.length = 0 := by simpa using h.symm
    simp [this, bufferPtr]
  | cons b bs =>
    have : args.length > 0 := by rw [← h]; simp
    simp [this, addrOfFirst, bufferPtr]

theorem queryContextPtr_eq (buf : List TursoValue) :
    (if buf.length > 0 then addrOfFirst buf else some ArgPtr.null) = some (bufferPtr buf) := by
  cases buf <;> simp [addrOfFirst, bufferPtr]

theorem Query_sentinel (M : Marshal) (N : Native) (args : List Value) (buf : List TursoValue)
    (w : World) (h0 : w.stmt.ctx = 0) (hb : M.buildArgs args = .ok buf)
    (hl : buf.length = args.length) :
    ∃ out, Query M N args w = some out ∧
      CallsOnSentinel w.log out.2.log (Call.stmtQuery 0 (bufferPtr buf) buf.length) := by
  unfold Query
  simp only [hb, queryPtr_eq args buf hl, h0, toUint64]
  exact queryTail_sentinel N w _ _ h0

theorem QueryContext_sentinel (M : Marshal) (N : Native) (args : List NamedValue)
    (buf : List TursoValue) (w : World) (h0 : w.stmt.ctx = 0)
    (hb : M.buildNamedArgs args = .ok buf) :
    ∃ out, QueryContext M N Context.live args w = some out ∧
      CallsOnSentinel w.log out.2.log (Call.stmtQuery 0 (bufferPtr buf) buf.length) := by
  unfold QueryContext
  simp only [hb, queryContextPtr_eq, h0, toUint64, Context.isDone]
  exact queryTail_sentinel N w _ _ h0

theorem ExecContext_sentinel (M : Marshal) (N : Native) (args : List NamedValue) (p : ArgPtr)
    (w : World) (h0 : w.stmt.ctx = 0) (hp : M.getArgsPtr (M.namedValueToValue args) = .ok p) :
    CallsOnSentinel w.log (ExecContext M N Context.live args w).2.log
      (Call.stmtExec 0 p (toInt32 args.length)) := by
  unfold ExecContext
  simp only [hp, h0, Context.isDone]
  generalize (N.stmtExec w.log 0 p (toInt32 args.length)) = r
  obtain ⟨c, wr⟩ := r
  cases c
  case Ok => exact sentinel_execSucceeded N _ w _ rfl h0
  case Done => exact sentinel_execSucceeded N _ w _ rfl h0
  case Busy => exact sentinel_single w _ rfl
  case Interrupt => exact sentinel_single w _ rfl
  all_goals exact sentinel_after_getError N w _ rfl h0

/-- C1, as stated, fails: after `Close`, `NumInput`, `Exec` and `Query` still cross
the boundary, with handle `0`. On a native library that rejects the null handle,
`NumInput` returns `-1` after two boundary calls, `Exec` returns the fixed error of the
`Error` code after a native exec call, and `Query` returns nil rows and a nil error
after two boundary calls; on a library that accepts it, `Exec` returns success. -/
theorem closed_statement_still_calls_native :
    (Close strictNative freshWorld).2 =
      { stmt := { ctx := 0, sql := "INSERT INTO t VALUES (1)", err := none },
        log := [Call.stmtClose 7] } ∧
    NumInput strictNative (Close strictNative freshWorld).2 =
      (-1, { stmt := { ctx := 0, sql := "INSERT INTO t VALUES (1)", err := none },
             log := [Call.stmtClose 7, Call.stmtParamCount 0, Call.stmtGetError 0] }) ∧
    Exec slotMarshal strictNative [] (Close strictNative freshWorld).2 =
      some ((none, some (GoError.new "error executing statement")),
        { stmt := { ctx := 0, sql := "INSERT INTO t VALUES (1)", err := none },
          log := [Call.stmtClose 7, Call.stmtExec 0 ArgPtr.null 0] }) ∧
    Query slotMarshal strictNative [] (Close strictNative freshWorld).2 =
      some ((none, none),
        { stmt := { ctx := 0, sql := "INSERT INTO t VALUES (1)", err := none },
          log := [Call.stmtClose 7, Call.stmtQuery 0 ArgPtr.null 0, Call.stmtGetError 0] }) ∧
    Exec slotMarshal healthyNative [] (Close healthyNative freshWorld).2 =
      some ((some { lastID := 42, haveLast := true, rows := 1 }, none),
        { stmt := { ctx := 0, sql := "INSERT INTO t VALUES (1)", err := none },
          log := [Call.stmtClose 7, Call.stmtExec 0 ArgPtr.null 0,
            Call.stmtLastInsertId 0] }) := by
  refine ⟨rfl, rfl, rfl, rfl, rfl⟩

/-- C1, amended: after `Close` has returned the handle is the sentinel `0`, and every
subsequent `NumInput`, `Exec`, `Query`, `ExecContext` and `QueryContext` (arguments that
marshal, one buffer slot per argument for `Query`, signal not fired) does not test for
the closed state: it issues its boundary call with handle `0` first, and every
boundary call it issues names handle `0`, so the invalidated handle is never passed. -/
theorem closed_statement_uses_sentinel (M : Marshal) (N N2 : Native) (w : World) :
    (Close N w).2.stmt.ctx = 0 ∧
    CallsOnSentinel (Close N w).2.log (NumInput N2 (Close N w).2).2.log
      (Call.stmtParamCount 0) ∧
    (∀ args buf, M.buildArgs args = .ok buf →
      ∃ out, Exec M N2 args (Close N w).2 = some out ∧
        CallsOnSentinel (Close N w).2.log out.2.log
          (Call.stmtExec 0 (bufferPtr buf) (toInt32 args.length))) ∧
    (∀ args buf, M.buildArgs args = .ok buf → buf.length = args.length →
      ∃ out, Query M N2 args (Close N w).2 = some out ∧
        CallsOnSentinel (Close N w).2.log out.2.log
          (Call.stmtQuery 0 (bufferPtr buf) buf.length)) ∧
    (∀ args p, M.getArgsPtr (M.namedValueToValue args) = .ok p →
      CallsOnSentinel (Close N w).2.log
        (ExecContext M N2 Context.live args (Close N w).2).2.log
        (Call.stmtExec 0 p (toInt32 args.length))) ∧
    (∀ args buf, M.buildNamedArgs args = .ok buf →
      ∃ out, QueryContext M N2 Context.live args (Close N w).2 = some out ∧
        CallsOnSentinel (Close N w).2.log out.2.log
          (Call.stmtQuery 0 (bufferPtr buf) buf.length)) := by
  have h0 := Close_ctx N w
  exact ⟨h0, NumInput_sentinel N2 _ h0,
    fun args buf hb => Exec_sentinel M N2 args buf _ h0 hb,
    fun args buf hb hl => Query_sentinel M N2 args buf _ h0 hb hl,
    fun args p hp => ExecContext_sentinel M N2 args p _ h0 hp,
    fun args buf hb => QueryContext_sentinel M N2 args buf _ h0 hb⟩

/-- C1 (amended) at a concrete input: a statement with handle 7 is closed, then executed
and queried with one argument. -/
theorem closed_statement_uses_sentinel_witness :
    (∃ out, Exec slotMarshal strictNative [⟨1⟩] (Close healthyNative freshWorld).2 = some out ∧
      CallsOnSentinel [Call.stmtClose 7] out.2.log
        (Call.stmtExec 0 (ArgPtr.firstOf [⟨1, 1⟩]) 1)) ∧
    (∃ out, Query slotMarshal strictNative [⟨1⟩] (Close healthyNative freshWorld).2 = some out ∧
      CallsOnSentinel [Call.stmtClose 7] out.2.log
        (Call.stmtQuery 0 (ArgPtr.firstOf [⟨1, 1⟩]) 1)) :=
  have h := closed_statement_uses_sentinel slotMarshal healthyNative strictNative freshWorld
  ⟨h.2.2.1 [⟨1⟩] [⟨1, 1⟩] rfl, h.2.2.2.1 [⟨1⟩] [⟨1, 1⟩] rfl rfl⟩

/-! ### Argument-buffer addressing -/

theorem getError_log_ext (N : Native) (w : World) :
    ∃ cs, (getError N w).2.log = w.log ++ cs := by
  by_cases hn : (N.stmtGetError w.log w.stmt.ctx).1 = 0
  · rw [getError_of_null _ _ hn]
    exact ⟨_, rfl⟩
  · rw [getError_of_text _ _ hn]
    exact ⟨_, rfl⟩

theorem callsSince_append (before cs : List Call) : callsSince before (before ++ cs) = cs := by
  simp [callsSince]

theorem first_call_after_getError (N : Native) (w : World) (c : Call) :
    (callsSince w.log (getError N (w.record c)).2.log).head? = some c := by
  obtain ⟨cs, hl⟩ := getError_log_ext N (w.record c)
  rw [hl]
  simp [World.record, callsSince]

theorem first_call_single (w : World) (c : Call) :
    (callsSince w.log (w.record c).log).head? = some c := by
  simp [World.record, callsSince]

theorem first_call_execSucceeded (N : Native) (changes : Int) (w : World) (c : Call) :
    (callsSince w.log (execSucceeded N changes (w.record c)).2.log).head? = some c := by
  simp [execSucceeded, World.record, callsSince]

theorem Exec_first_call (M : Marshal) (N : Native) (args : List Value) (buf : List TursoValue)
    (w : World) (hb : M.buildArgs args = .ok buf) :
    ∃ out, Exec M N args w = some out ∧
      (callsSince w.log out.2.log).head? =
        some (Call.stmtExec w.stmt.ctx (bufferPtr buf) (toInt32 args.length)) := by
  unfold Exec
  simp only [hb, execPtr_eq]
  generalize (N.stmtExec w.log w.stmt.ctx (bufferPtr buf) (toInt32 args.length)) = r
  obtain ⟨c, wr⟩ := r
  cases c
  case Ok => exact ⟨_, rfl, first_call_execSucceeded N _ w _⟩
  case Done => exact ⟨_, rfl, first_call_execSucceeded N _ w _⟩
  case other n => exact ⟨_, rfl, first_call_after_getError N w _⟩
  all_goals exact ⟨_, rfl, first_call_single w _⟩

theorem queryTail_first_call (N : Native) (w : World) (p : ArgPtr) (n : Nat) :
    ∃ out,
      (if N.stmtQuery w.log w.stmt.ctx p n = 0 then
          some ((none, (getError N (w.record (Call.stmtQuery w.stmt.ctx p n))).1),
            (getError N (w.record (Call.stmtQuery w.stmt.ctx p n))).2)
        else some ((some ({ ctx := N.stmtQuery w.log w.stmt.ctx p n } : tursoRows), none),
            w.record (Call.stmtQuery w.stmt.ctx p n))) = some out ∧
      (callsSince w.log out.2.log).head? = some (Call.stmtQuery w.stmt.ctx p n) := by
  by_cases h : N.stmtQuery w.log w.stmt.ctx p n = 0
  · exact ⟨_, by rw [if_pos h], first_call_after_getError N w (Call.stmtQuery w.stmt.ctx p n)⟩
  · exact ⟨_, by rw [if_neg h], first_call_single w (Call.stmtQuery w.stmt.ctx p n)⟩

theorem Query_first_call (M : Marshal) (N : Native) (args : List Value) (buf : List TursoValue)
    (w : World) (hb : M.buildArgs args = .ok buf) (hl : buf.length = args.length) :
    ∃ out, Query M N args w = some out ∧
      (callsSince w.log out.2.log).head? =
        some (Call.stmtQuery w.stmt.ctx (bufferPtr buf) buf.length) := by
  unfold Query
  simp only [hb, queryPtr_eq args buf hl, toUint64]
  exact queryTail_first_call N w _ _

theorem QueryContext_first_call (M : Marshal) (N : Native) (args : List NamedValue)
    (buf : List TursoValue) (w : World) (hb : M.buildNamedArgs args = .ok buf) :
    ∃ out, QueryContext M N Context.live args w = some out ∧
      (callsSince w.log out.2.log).head? =
        some (Call.stmtQuery w.stmt.ctx (bufferPtr buf) buf.length) := by
  unfold QueryContext
  simp only [hb, queryContextPtr_eq, toUint64, Context.isDone]
  exact queryTail_first_call N w _ _

theorem bufferPtr_safe (buf : List TursoValue) : SafePtr buf (bufferPtr buf) := by
  cases buf with
  | nil => exact Or.inl rfl
  | cons b bs => exact Or.inr ⟨by simp, rfl⟩

theorem bufferPtr_null_iff (buf : List TursoValue) :
    bufferPtr buf = ArgPtr.null ↔ buf.length = 0 := by
  cases buf <;> simp [bufferPtr]

theorem toInt32_eq_zero_iff (n : Nat) (h : n < 2147483648) : toInt32 n = 0 ↔ n = 0 := by
  unfold toInt32
  omega

/-- C10: argument-buffer addressing is safe and consistent. For every argument list
and every buffer the marshaller returns for it without error (one slot per bound
argument, as the data model lays the argument buffer out, and an argument count that
the `int32` parameter of the exec call represents), `Exec` and `Query` return without
an out-of-range index, the pointer they hand to the native call is null or the address
of the first element of a non-empty buffer, and it is null exactly when the count
handed to that call is zero; `QueryContext` (signal not fired) does so for every
buffer. With zero arguments the pointer is null, the count is zero and the buffer is
not indexed. -/
theorem argument_pointer_consistent (M : Marshal) (N : Native) (w : World) :
    (∀ args buf, M.buildArgs args = .ok buf → buf.length = args.length →
      args.length < 2147483648 →
      ∃ out p c, Exec M N args w = some out ∧
        (callsSince w.log out.2.log).head? = some (Call.stmtExec w.stmt.ctx p c) ∧
        SafePtr buf p ∧ (p = ArgPtr.null ↔ c = 0) ∧ (args = [] → p = ArgPtr.null ∧ c = 0)) ∧
    (∀ args buf, M.buildArgs args = .ok buf → buf.length = args.length →
      ∃ out p c, Query M N args w = some out ∧
        (callsSince w.log out.2.log).head? = some (Call.stmtQuery w.stmt.ctx p c) ∧
        SafePtr buf p ∧ (p = ArgPtr.null ↔ c = 0) ∧ (args = [] → p = ArgPtr.null ∧ c = 0)) ∧
    (∀ args buf, M.buildNamedArgs args = .ok buf →
      ∃ out p c, QueryContext M N Context.live args w = some out ∧
        (callsSince w.log out.2.log).head? = some (Call.stmtQuery w.stmt.ctx p c) ∧
        SafePtr buf p ∧ (p = ArgPtr.null ↔ c = 0) ∧ (buf = [] → p = ArgPtr.null ∧ c = 0)) := by
  refine ⟨?_, ?_, ?_⟩
  · intro args buf hb hl hn
    obtain ⟨out, ho, hc⟩ := Exec_first_call M N args buf w hb
    refine ⟨out, _, _, ho, hc, bufferPtr_safe buf, ?_, ?_⟩
    · rw [bufferPtr_null_iff, toInt32_eq_zero_iff _ hn, hl]
    · intro ha
      subst ha
      have : buf = [] := List.length_eq_zero.1 (by simpa using hl)
      subst this
      exact ⟨rfl, rfl⟩
  · intro args buf hb hl
    obtain ⟨out, ho, hc⟩ := Query_first_call M N args buf w hb hl
    refine ⟨out, _, _, ho, hc, bufferPtr_safe buf, bufferPtr_null_iff buf, ?_⟩
    intro ha
    subst ha
    have : buf = [] := List.length_eq_zero.1 (by simpa using hl)
    subst this
    exact ⟨rfl, rfl⟩
  · intro args buf hb
    obtain ⟨out, ho, hc⟩ := QueryContext_first_call M N args buf w hb
    refine ⟨out, _, _, ho, hc, bufferPtr_safe buf, bufferPtr_null_iff buf, ?_⟩
    intro ha
    subst ha
    exact ⟨rfl, rfl⟩

/-- C10 at concrete inputs: `Exec` with no argument and `Query` with one. -/
theorem argument_pointer_consistent_witness :
    (∃ out p c, Exec slotMarshal healthyNative [] freshWorld = some out ∧
      (callsSince freshWorld.log out.2.log).head? = some (Call.stmtExec 7 p c) ∧
      SafePtr [] p ∧ (p = ArgPtr.null ↔ c = 0) ∧
      (([] : List Value) = [] → p = ArgPtr.null ∧ c = 0)) ∧
    (∃ out p c, Query slotMarshal healthyNative [⟨1⟩] freshWorld = some out ∧
      (callsSince freshWorld.log out.2.log).head? = some (Call.stmtQuery 7 p c) ∧
      SafePtr [⟨1, 1⟩] p ∧ (p = ArgPtr.null ↔ c = 0) ∧
      (([⟨1⟩] : List Value) = [] → p = ArgPtr.null ∧ c = 0)) :=
  have h := argument_pointer_consistent slotMarshal healthyNative freshWorld
  ⟨h.1 [] [] rfl rfl (by decide), h.2.1 [⟨1⟩] [⟨1, 1⟩] rfl rfl⟩

/-! ### The loader -/

theorem libNameFor_unsupported (goos : String) (h : goos ∉ supportedOS) :
    libNameFor goos = .error (GoError.new ("unsupported operating system: " ++ goos)) := by
  simp only [supportedOS, List.mem_cons, List.mem_singleton, List.not_mem_nil, or_false,
    not_or] at h
  simp [libNameFor, h.1, h.2.1, h.2.2]

theorem archSuffixFor_unsupported (goarch : String) (h : goarch ∉ supportedArch) :
    archSuffixFor goarch = .error (GoError.new ("unsupported architecture: " ++ goarch)) := by
  simp only [supportedArch, List.mem_cons, List.mem_singleton, List.not_mem_nil, or_false,
    not_or] at h
  simp [archSuffixFor, h.1, h.2.1, h.2.2]

theorem libNameFor_supported (goos : String) (h : goos ∈ supportedOS) :
    ∃ lib, libNameFor goos = .ok lib ∧ lib ≠ "" := by
  simp only [supportedOS, List.mem_cons, List.mem_singleton, List.not_mem_nil, or_false] at h
  rcases h with rfl | rfl | rfl
  · exact ⟨"libturso_go.dylib", rfl, by decide⟩
  · exact ⟨"libturso_go.so", rfl, by decide⟩
  · exact ⟨"turso_go.dll", rfl, by decide⟩

theorem archSuffixFor_supported (goarch : String) (h : goarch ∈ supportedArch) :
    archSuffixFor goarch = .ok goarch := by
  simp only [supportedArch, List.mem_cons, List.mem_singleton, List.not_mem_nil, or_false] at h
  rcases h with rfl | rfl | rfl <;> rfl

theorem resolvePlatform_unsupported (goos goarch : String)
    (h : ¬ (goos ∈ supportedOS ∧ goarch ∈ supportedArch)) :
    ∃ e, resolvePlatform goos goarch = .error e ∧ UnsupportedPlatform goos goarch e := by
  by_cases ho : goos ∈ supportedOS
  · have ha : goarch ∉ supportedArch := fun ha => h ⟨ho, ha⟩
    obtain ⟨lib, hlib, -⟩ := libNameFor_supported goos ho
    exact ⟨_, by simp [resolvePlatform, hlib, archSuffixFor_unsupported goarch ha], Or.inr rfl⟩
  · exact ⟨_, by simp [resolvePlatform, libNameFor_unsupported goos ho], Or.inl rfl⟩

theorem extract_unsupported (E : Env) (e : GoError)
    (h : resolvePlatform E.GOOS E.GOARCH = .error e) :
    extractEmbeddedLibrary E LoaderState.initial =
      (("", some e), { done := true, extractedPath := "", extractErr := some e, log := [] }) := by
  simp [extractEmbeddedLibrary, extractBody, LoaderState.initial, h]

/-- C8: platform resolution inside the loader. Each of the nine supported pairs yields
the platform directory `<os>_<arch>` (non-empty) and a non-empty library file name;
distinct supported pairs yield distinct keys; every other pair yields an
unsupported-platform error, and the first `extractEmbeddedLibrary` call of the process
then returns the empty path with that error and performs no action at all. -/
theorem platform_resolution :
    (∀ os ∈ supportedOS, ∀ arch ∈ supportedArch,
      ∃ lib, resolvePlatform os arch = .ok (os ++ "_" ++ arch, lib) ∧ lib ≠ "" ∧
        os ++ "_" ++ arch ≠ "") ∧
    (∀ os1 ∈ supportedOS, ∀ arch1 ∈ supportedArch, ∀ os2 ∈ supportedOS,
      ∀ arch2 ∈ supportedArch,
      resolvePlatform os1 arch1 = resolvePlatform os2 arch2 → os1 = os2 ∧ arch1 = arch2) ∧
    (∀ os arch, ¬ (os ∈ supportedOS ∧ arch ∈ supportedArch) →
      ∃ e, resolvePlatform os arch = .error e ∧ UnsupportedPlatform os arch e ∧
        ∀ E : Env, E.GOOS = os → E.GOARCH = arch →
          extractEmbeddedLibrary E LoaderState.initial =
            (("", some e),
              { done := true, extractedPath := "", extractErr := some e, log := [] })) := by
  refine ⟨?_, ?_, ?_⟩
  · intro os ho arch ha
    simp only [supportedOS, supportedArch, List.mem_cons, List.mem_singleton,
      List.not_mem_nil, or_false] at ho ha
    rcases ho with rfl | rfl | rfl <;> rcases ha with rfl | rfl | rfl <;>
      exact ⟨_, rfl, by decide, by decide⟩
  · intro os1 ho1 arch1 ha1 os2 ho2 arch2 ha2
    simp only [supportedOS, supportedArch, List.mem_cons, List.mem_singleton,
      List.not_mem_nil, or_false] at ho1 ha1 ho2 ha2
    rcases ho1 with rfl | rfl | rfl <;> rcases ha1 with rfl | rfl | rfl <;>
      rcases ho2 with rfl | rfl | rfl <;> rcases ha2 with rfl | rfl | rfl <;>
      simp [resolvePlatform, libNameFor, archSuffixFor]
  · intro os arch h
    obtain ⟨e, he, hu⟩ := resolvePlatform_unsupported os arch h
    refine ⟨e, he, hu, ?_⟩
    intro E hos harch
    exact extract_unsupported E e (by rw [hos, harch, he])

/-- C8 at concrete inputs: `linux`/`arm64` resolves, and a `plan9` process gets the
unsupported-platform error with an empty path and an empty action log. -/
theorem platform_resolution_witness :
    (∃ lib, resolvePlatform "linux" "arm64" = .ok ("linux" ++ "_" ++ "arm64", lib) ∧ lib ≠ "" ∧
      "linux" ++ "_" ++ "arm64" ≠ "") ∧
    (∃ e, resolvePlatform "plan9" "amd64" = .error e ∧ UnsupportedPlatform "plan9" "amd64" e ∧
      ∀ E : Env, E.GOOS = "plan9" → E.GOARCH = "amd64" →
        extractEmbeddedLibrary E LoaderState.initial =
          (("", some e),
            { done := true, extractedPath := "", extractErr := some e, log := [] })) :=
  ⟨platform_resolution.1 "linux" (by decide) "arm64" (by decide),
    platform_resolution.2.2 "plan9" "amd64" (by decide)⟩

theorem extract_done (E : Env) (s : LoaderState) : (extractEmbeddedLibrary E s).2.done = true := by
  unfold extractEmbeddedLibrary
  by_cases h : s.done = true <;> simp [h]

theorem extract_result (E : Env) (s : LoaderState) :
    (extractEmbeddedLibrary E s).1 =
      ((extractEmbeddedLibrary E s).2.extractedPath, (extractEmbeddedLibrary E s).2.extractErr) :=
  rfl

theorem extract_of_done (E : Env) (s : LoaderState) (h : s.done = true) :
    extractEmbeddedLibrary E s = ((s.extractedPath, s.extractErr), s) := by
  unfold extractEmbeddedLibrary
  simp [h]

theorem extractTimes_of_done (E : Env) (s : LoaderState) (h : s.done = true) (n : Nat) :
    extractTimes E n s = (List.replicate n (s.extractedPath, s.extractErr), s) := by
  induction n with
  | zero => rfl
  | succ k ih => simp only [extractTimes, extract_of_done E s h, ih, List.replicate_succ]

/-- C9: the loader's outcome is computed once and cached. For every environment and
every state of the package variables, after one `extractEmbeddedLibrary` call any
number of later calls (in any environment) return the identical (path, error) pair
and leave the package variables and the action log exactly as they were. -/
theorem extract_cached (E E2 : Env) (s : LoaderState) (n : Nat) :
    (extractEmbeddedLibrary E s).2.done = true ∧
    extractTimes E2 n (extractEmbeddedLibrary E s).2 =
      (List.replicate n (extractEmbeddedLibrary E s).1, (extractEmbeddedLibrary E s).2) ∧
    (extractEmbeddedLibrary E2 (extractEmbeddedLibrary E s).2).2.log =
      (extractEmbeddedLibrary E s).2.log := by
  have hd := extract_done E s
  refine ⟨hd, ?_, ?_⟩
  · rw [extractTimes_of_done E2 _ hd n, extract_result]
  · rw [extract_of_done E2 _ hd]

/-- C9 at a concrete input, the directory-creation scenario: on a read-only cache root
the first call returns the wrapped `mkdir` error after a single `MkdirAll`; two later
calls return the same pair and the action log is unchanged. -/
theorem extract_cached_witness :
    (extractEmbeddedLibrary readOnlyCacheEnv LoaderState.initial).1 =
      ("", some (GoError.wrap "mkdir /home/u/.cache/turso-go/linux_amd64"
        (GoError.new "permission denied"))) ∧
    (extractEmbeddedLibrary readOnlyCacheEnv LoaderState.initial).2.log =
      [FsAction.readDirEmbedded "libs/linux_amd64", FsAction.println "libturso_go.so",
        FsAction.userCacheDir, FsAction.mkdirAll "/home/u/.cache/turso-go/linux_amd64"] ∧
    extractTimes readOnlyCacheEnv 2
        (extractEmbeddedLibrary readOnlyCacheEnv LoaderState.initial).2 =
      (List.replicate 2 (extractEmbeddedLibrary readOnlyCacheEnv LoaderState.initial).1,
        (extractEmbeddedLibrary readOnlyCacheEnv LoaderState.initial).2) :=
  ⟨rfl, rfl, (extract_cached readOnlyCacheEnv readOnlyCacheEnv LoaderState.initial 2).2.1⟩

end TursoGo
